import Mathlib

/-!
Verification of the tic-tac-toe game state machine from `src/server.ts`
(`TicTacToe` agent class: `makeMove`, `checkWinner`, `clearBoard`, `setMode`,
`initialState`) against its natural-language specification.

Modelling conventions (shallow embedding of the TypeScript source):
* `Player`, `GameMode`, `TicTacToeState` mirror the type declarations of the
  source (`type Player`, `type GameMode`, `type TicTacToeState`).
* The board `[[played,played,played],...]` is embedded as a total function
  `Fin 3 → Fin 3 → Option Player`; `null` is `none`.
* JavaScript out-of-range array reads are embedded explicitly: for an
  in-range row and out-of-range column, `board[row][col]` is `undefined`,
  and `undefined !== null` holds, so the source takes the
  "Cell already played" branch; for an out-of-range row, `board[row]` is
  `undefined` and `undefined[col]` throws a `TypeError`.
* The external Move Source (`generateObject` with GPT-4o) is embedded as an
  oracle: a list of responses consumed in order by the recursive AI branch of
  `makeMove`; an exhausted oracle behaves like a failing response.  A thrown
  JavaScript error is an outcome carrying the error and the agent state at
  throw time (state committed by earlier `setState` calls persists).
-/

namespace TicTacToeSpec

/-- `type Player = "X" | "O"` from the source. -/
inductive Player where
  | X
  | O
deriving DecidableEq, Repr

/-- The turn flip `player === "X" ? "O" : "X"` from line 63 of the source. -/
def otherPlayer : Player → Player
  | .X => .O
  | .O => .X

/-- `type played = Player | null`: one cell of the board, `none` = `null`. -/
abbrev Cell := Option Player

/-- The 3×3 board of the source, embedded as a total function on indices. -/
abbrev Board := Fin 3 → Fin 3 → Cell

/-- `type GameMode = "player-vs-ai" | "ai-vs-ai"` from the source. -/
inductive GameMode where
  | playerVsAi
  | aiVsAi
deriving DecidableEq, Repr

/-- `type TicTacToeState` from the source: board, current player, winner,
mode and the `isAiThinking` flag. -/
structure TicTacToeState where
  board : Board
  currentPlayer : Player
  winner : Option Player
  mode : GameMode
  isAiThinking : Bool

instance : DecidableEq TicTacToeState := fun a b =>
  decidable_of_iff
    (a.board = b.board ∧ a.currentPlayer = b.currentPlayer ∧
      a.winner = b.winner ∧ a.mode = b.mode ∧ a.isAiThinking = b.isAiThinking)
    (by cases a; cases b; simp [TicTacToeState.mk.injEq])

/-- The `initialState` field of the `TicTacToe` class (lines 35–45). -/
def initialState : TicTacToeState where
  board := fun _ _ => none
  currentPlayer := .X
  winner := none
  mode := .playerVsAi
  isAiThinking := false

/-- The eight winning lines of `checkWinner` (lines 137–181), in source
order: three rows, three columns, main diagonal, anti-diagonal. -/
def winningLines : List ((Fin 3 × Fin 3) × (Fin 3 × Fin 3) × (Fin 3 × Fin 3)) :=
  [ ((0, 0), (0, 1), (0, 2)),
    ((1, 0), (1, 1), (1, 2)),
    ((2, 0), (2, 1), (2, 2)),
    ((0, 0), (1, 0), (2, 0)),
    ((0, 1), (1, 1), (2, 1)),
    ((0, 2), (1, 2), (2, 2)),
    ((0, 0), (1, 1), (2, 2)),
    ((0, 2), (1, 1), (2, 0)) ]

/-- The body of the `for` loop of `checkWinner` (lines 182–191): a line
yields its mark when its first cell is truthy (non-`null`) and the other two
cells hold the same value; otherwise it yields nothing. -/
def lineWinner (board : Board) (l : (Fin 3 × Fin 3) × (Fin 3 × Fin 3) × (Fin 3 × Fin 3)) :
    Option Player :=
  match board l.1.1 l.1.2 with
  | none => none
  | some p =>
      if board l.2.1.1 l.2.1.2 = some p ∧ board l.2.2.1 l.2.2.2 = some p then
        some p
      else
        none

/-- `checkWinner` (lines 136–193): scan the eight lines in order and return
the mark of the first complete line, or `null` when none is complete. -/
def checkWinner (board : Board) : Option Player :=
  winningLines.findSome? (lineWinner board)

/-- `board.every((row) => row.every((cell) => cell !== null))` (line 72). -/
def boardFull (b : Board) : Bool :=
  decide (∀ i j : Fin 3, b i j ≠ none)

/-- The failure modes of `makeMove`:
* `wrongTurn` — `throw new Error("It's not your turn")` (line 50);
* `cellOccupied` — `throw new Error("Cell already played")` (line 54);
* `typeError` — the JavaScript `TypeError` thrown by
  `this.state.board[row][col]` when `row` is out of range (line 53);
* `aiFailure` — the Move Source error rethrown by the `catch` block
  (line 131). -/
inductive MoveError where
  | wrongTurn
  | cellOccupied
  | typeError
  | aiFailure
deriving DecidableEq, Repr

/-- The single-cell write `board[row][col] = player` (line 59), performed on
the copy of the board made on lines 56–58. -/
def setCell (b : Board) (r c : Fin 3) (p : Player) : Board :=
  fun i j => if i = r ∧ j = c then some p else b i j

/-- The state committed by `setState` on lines 60–66 after a validated write
at `(r, c)`: fresh board, flipped current player, recomputed winner,
`isAiThinking: false`; `mode` is carried over by the spread of
`this.state`. -/
def moveState (s : TicTacToeState) (r c : Fin 3) (player : Player) : TicTacToeState :=
  { s with
      board := setCell s.board r c player
      currentPlayer := otherPlayer player
      winner := checkWinner (setCell s.board r c player)
      isAiThinking := false }

instance {ε α : Type} [DecidableEq ε] [DecidableEq α] : DecidableEq (Except ε α)
  | .ok a, .ok b => decidable_of_iff (a = b) (by simp)
  | .error a, .error b => decidable_of_iff (a = b) (by simp)
  | .ok _, .error _ => isFalse fun h => Except.noConfusion h
  | .error _, .ok _ => isFalse fun h => Except.noConfusion h

/-- JavaScript array indexing on a length-3 array: an index inside `[0, 2]`
denotes the cell, anything else reads as `undefined` (`none`). -/
def toIdx (i : Int) : Option (Fin 3) :=
  if h : 0 ≤ i ∧ i < 3 then some ⟨i.toNat, by omega⟩ else none

/-- The synchronous validation-and-write prefix of `makeMove` (lines 49–66):
turn check, cell read (with the JavaScript semantics of out-of-range reads),
occupancy check, then the `setState` of lines 60–66.  Returns the thrown
error or the committed state. -/
def applyMove (s : TicTacToeState) (row col : Int) (player : Player) :
    Except MoveError TicTacToeState :=
  if s.currentPlayer ≠ player then
    .error .wrongTurn
  else
    match toIdx row with
    | none =>
      -- out-of-range row: `board[row]` is `undefined`; `undefined[col]` throws
      .error .typeError
    | some r =>
      match toIdx col with
      | none =>
        -- in-range row, out-of-range col: `board[row][col]` is `undefined`,
        -- and `undefined !== null`, so the source throws "Cell already played"
        .error .cellOccupied
      | some c =>
        if s.board r c ≠ none then
          .error .cellOccupied
        else
          .ok (moveState s r c player)

/-- One response of the external Move Source (`generateObject`): either a
generated coordinate pair or a failure of the request. -/
inductive AiResponse where
  | move (row col : Int)
  | failure
deriving DecidableEq, Repr

/-- The result of a `makeMove` invocation: `error = none` when the call
returned normally, `error = some e` when it threw `e`; `state` is the agent
state when the call finished or threw. -/
structure MoveOutcome where
  error : Option MoveError
  state : TicTacToeState
deriving DecidableEq

/-- The AI-trigger condition of lines 77–79:
`mode === "ai-vs-ai" || (mode === "player-vs-ai" && currentPlayer === "O")`,
read from the state committed by the move. -/
def shouldAIPlay (s : TicTacToeState) : Bool :=
  decide (s.mode = GameMode.aiVsAi ∨
    (s.mode = GameMode.playerVsAi ∧ s.currentPlayer = Player.O))

/-- `makeMove(move, player)` (lines 48–134), with the Move Source embedded
as the `oracle` list.  After a successful write (lines 49–66) the method
returns at once on a winner (line 68) or a full board (line 72); otherwise,
when `shouldAIPlay` holds, it sets `isAiThinking: true` (lines 83–86),
consumes the next Move Source response, and on success recursively invokes
itself with the generated coordinates and the current player (lines
125–128); a failed response is rethrown by the `catch` (line 131) with the
committed state (including `isAiThinking: true`) left in place. -/
def makeMove : List AiResponse → TicTacToeState → Int → Int → Player → MoveOutcome
  | oracle, s, row, col, player =>
    match applyMove s row col player with
    | .error e => ⟨some e, s⟩
    | .ok s1 =>
      if (s1.winner).isSome then ⟨none, s1⟩
      else if boardFull s1.board then ⟨none, s1⟩
      else if shouldAIPlay s1 then
        match oracle with
        | [] => ⟨some .aiFailure, { s1 with isAiThinking := true }⟩
        | resp :: rest =>
          match resp with
          | .failure => ⟨some .aiFailure, { s1 with isAiThinking := true }⟩
          | .move r2 c2 =>
              makeMove rest { s1 with isAiThinking := true } r2 c2 s1.currentPlayer
      else ⟨none, s1⟩

/-- `clearBoard` (lines 195–198):
`setState({ ...this.initialState, mode: this.state.mode })`. -/
def clearBoard (s : TicTacToeState) : TicTacToeState :=
  { initialState with mode := s.mode }

/-- `setMode` (lines 200–203): `setState({ ...this.state, mode })`. -/
def setMode (s : TicTacToeState) (mode : GameMode) : TicTacToeState :=
  { s with mode := mode }

/-- The spec's win predicate on a line: "a line is a win if all three cells
share the same non-empty mark". -/
def lineIsFor (b : Board) (l : (Fin 3 × Fin 3) × (Fin 3 × Fin 3) × (Fin 3 × Fin 3))
    (m : Player) : Prop :=
  b l.1.1 l.1.2 = some m ∧ b l.2.1.1 l.2.1.2 = some m ∧ b l.2.2.1 l.2.2.2 = some m

instance (b : Board) (l : (Fin 3 × Fin 3) × (Fin 3 × Fin 3) × (Fin 3 × Fin 3)) (m : Player) :
    Decidable (lineIsFor b l m) := by
  unfold lineIsFor; infer_instance

/-- The spec's game states (§4.1): `InProgress`, `Won(side)`, `Draw`. -/
inductive GameStatus where
  | inProgress
  | won (p : Player)
  | draw
deriving DecidableEq, Repr

/-- Classification of a machine state by the spec's states: a set winner is
`Won`; otherwise a full board is `Draw` and a non-full board `InProgress`. -/
def status (s : TicTacToeState) : GameStatus :=
  match s.winner with
  | some p => .won p
  | none => if boardFull s.board then .draw else .inProgress

/-! ### Helper lemmas -/

theorem lineWinner_eq_some_iff (b : Board)
    (l : (Fin 3 × Fin 3) × (Fin 3 × Fin 3) × (Fin 3 × Fin 3)) (m : Player) :
    lineWinner b l = some m ↔ lineIsFor b l m := by
  obtain ⟨⟨a1, a2⟩, ⟨b1, b2⟩, ⟨c1, c2⟩⟩ := l
  unfold lineWinner lineIsFor
  cases h : b a1 a2 with
  | none => simp
  | some p =>
    dsimp only
    split_ifs with hbc
    · constructor
      · intro he
        obtain rfl : p = m := by simpa using he
        exact ⟨rfl, hbc.1, hbc.2⟩
      · exact fun hh => hh.1
    · constructor
      · intro he
        simp at he
      · rintro ⟨he, hb, hc⟩
        obtain rfl : p = m := by simpa using he
        exact absurd ⟨hb, hc⟩ hbc

theorem lineWinner_eq_none_iff (b : Board)
    (l : (Fin 3 × Fin 3) × (Fin 3 × Fin 3) × (Fin 3 × Fin 3)) :
    lineWinner b l = none ↔ ∀ m : Player, ¬ lineIsFor b l m := by
  constructor
  · intro h m hm
    rw [(lineWinner_eq_some_iff b l m).mpr hm] at h
    cases h
  · intro h
    cases heq : lineWinner b l with
    | none => rfl
    | some m => exact absurd ((lineWinner_eq_some_iff b l m).mp heq) (h m)

/-- `findSome?` returns `some b` exactly when the list splits at a first
element mapped to `some b`, every earlier element mapped to `none`. -/
theorem findSome?_eq_some_split {α β : Type} (f : α → Option β) (b : β) (l : List α) :
    l.findSome? f = some b ↔
      ∃ l1 x l2, l = l1 ++ x :: l2 ∧ f x = some b ∧ ∀ y ∈ l1, f y = none := by
  induction l with
  | nil =>
    simp only [List.findSome?_nil]
    constructor
    · intro h; cases h
    · rintro ⟨l1, x, l2, heq, -, -⟩
      exact absurd heq.symm (by simp)
  | cons a t ih =>
    rw [List.findSome?_cons]
    cases hfa : f a with
    | some bb =>
      dsimp only
      constructor
      · intro h
        exact ⟨[], a, t, rfl, hfa.trans h, by simp⟩
      · rintro ⟨l1, x, l2, heq, hfx, hnone⟩
        cases l1 with
        | nil =>
          simp only [List.nil_append, List.cons.injEq] at heq
          obtain ⟨rfl, rfl⟩ := heq
          rw [hfa] at hfx
          exact hfx
        | cons a1 l1t =>
          simp only [List.cons_append, List.cons.injEq] at heq
          obtain ⟨rfl, rfl⟩ := heq
          have := hnone a (by simp)
          rw [hfa] at this
          cases this
    | none =>
      dsimp only
      rw [ih]
      constructor
      · rintro ⟨l1, x, l2, rfl, hfx, hnone⟩
        refine ⟨a :: l1, x, l2, rfl, hfx, ?_⟩
        intro y hy
        rcases List.mem_cons.mp hy with rfl | hy'
        · exact hfa
        · exact hnone y hy'
      · rintro ⟨l1, x, l2, heq, hfx, hnone⟩
        cases l1 with
        | nil =>
          simp only [List.nil_append, List.cons.injEq] at heq
          obtain ⟨rfl, rfl⟩ := heq
          rw [hfa] at hfx
          cases hfx
        | cons a1 l1t =>
          simp only [List.cons_append, List.cons.injEq] at heq
          obtain ⟨rfl, rfl⟩ := heq
          exact ⟨l1t, x, l2, rfl, hfx, fun y hy => hnone y (List.mem_cons_of_mem _ hy)⟩

theorem checkWinner_eq_some_iff (b : Board) (m : Player) :
    checkWinner b = some m ↔
      ∃ pre l post, winningLines = pre ++ l :: post ∧ lineIsFor b l m ∧
        ∀ l' ∈ pre, ∀ m' : Player, ¬ lineIsFor b l' m' := by
  unfold checkWinner
  rw [findSome?_eq_some_split]
  constructor
  · rintro ⟨pre, l, post, heq, hfl, hnone⟩
    exact ⟨pre, l, post, heq, (lineWinner_eq_some_iff b l m).mp hfl,
      fun l' hl' => (lineWinner_eq_none_iff b l').mp (hnone l' hl')⟩
  · rintro ⟨pre, l, post, heq, hfl, hnone⟩
    exact ⟨pre, l, post, heq, (lineWinner_eq_some_iff b l m).mpr hfl,
      fun l' hl' => (lineWinner_eq_none_iff b l').mpr (hnone l' hl')⟩

theorem checkWinner_eq_none_iff (b : Board) :
    checkWinner b = none ↔ ∀ l ∈ winningLines, ∀ m : Player, ¬ lineIsFor b l m := by
  unfold checkWinner
  rw [List.findSome?_eq_none_iff]
  constructor
  · intro h l hl
    exact (lineWinner_eq_none_iff b l).mp (h l hl)
  · intro h l hl
    exact (lineWinner_eq_none_iff b l).mpr (h l hl)

theorem toIdx_eq_some {i : Int} {r : Fin 3} (h : toIdx i = some r) : i = (r.val : Int) := by
  unfold toIdx at h
  split_ifs at h with hi
  obtain rfl : (⟨i.toNat, by omega⟩ : Fin 3) = r := by simpa using h
  simp [Int.toNat_of_nonneg hi.1]

/-- Inversion of a successful `applyMove`: the claimed player was the current
player, the coordinates denote an in-range empty cell, and the new state is
the `setState` object of lines 60–66. -/
theorem applyMove_ok {s : TicTacToeState} {row col : Int} {player : Player}
    {s' : TicTacToeState} (h : applyMove s row col player = Except.ok s') :
    player = s.currentPlayer ∧
      ∃ r c : Fin 3, row = (r.val : Int) ∧ col = (c.val : Int) ∧
        s.board r c = none ∧ s' = moveState s r c player := by
  unfold applyMove at h
  by_cases h1 : s.currentPlayer ≠ player
  · rw [if_pos h1] at h
    cases h
  · rw [if_neg h1] at h
    cases hr : toIdx row with
    | none =>
      rw [hr] at h
      cases h
    | some r =>
      rw [hr] at h
      cases hc : toIdx col with
      | none =>
        rw [hc] at h
        cases h
      | some c =>
        rw [hc] at h
        dsimp only at h
        by_cases h4 : s.board r c ≠ none
        · rw [if_pos h4] at h
          cases h
        · rw [if_neg h4] at h
          injection h with h5
          exact ⟨(not_ne_iff.mp h1).symm, r, c, toIdx_eq_some hr, toIdx_eq_some hc,
            not_ne_iff.mp h4, h5.symm⟩

/-- `makeMove` on a throwing validation returns the error with the state
untouched. -/
theorem makeMove_error {s : TicTacToeState} {row col : Int} {player : Player}
    {e : MoveError} (oracle : List AiResponse)
    (h : applyMove s row col player = Except.error e) :
    makeMove oracle s row col player = ⟨some e, s⟩ := by
  unfold makeMove
  rw [h]

/-- `makeMove` returns at once after a move that sets a winner (line 68). -/
theorem makeMove_ok_winner {s : TicTacToeState} {row col : Int} {player : Player}
    {s1 : TicTacToeState} (oracle : List AiResponse)
    (h : applyMove s row col player = Except.ok s1) (hw : s1.winner.isSome) :
    makeMove oracle s row col player = ⟨none, s1⟩ := by
  unfold makeMove
  rw [h]
  simp [hw]

/-- `makeMove` returns at once after a move that fills the board with no
winner (line 72). -/
theorem makeMove_ok_full {s : TicTacToeState} {row col : Int} {player : Player}
    {s1 : TicTacToeState} (oracle : List AiResponse)
    (h : applyMove s row col player = Except.ok s1) (hw : s1.winner = none)
    (hf : boardFull s1.board = true) :
    makeMove oracle s row col player = ⟨none, s1⟩ := by
  unfold makeMove
  rw [h]
  simp [hw, hf]

theorem toIdx_coe (r : Fin 3) : toIdx ((r.val : Int)) = some r := by
  have h : 0 ≤ (r.val : Int) ∧ (r.val : Int) < 3 := by
    have := r.isLt
    omega
  unfold toIdx
  rw [dif_pos h]
  exact congrArg some (Fin.ext (by simp))

/-! ### Concrete states used in witnesses and counterexamples -/

/-- The state committed by the first successful human move `X` at `(0, 0)`
from the initial state. -/
def stateAfterX00 : TicTacToeState :=
  { initialState with
      board := setCell initialState.board 0 0 Player.X
      currentPlayer := Player.O
      winner := checkWinner (setCell initialState.board 0 0 Player.X) }

/-- The state reached by the spec's concrete scenario
X (0,0), O (1,1), X (0,1), O (1,2), X (0,2) — the O moves supplied by the
Move Source — ending with the top row completed for X: `winner = some X`,
`O` to move, board not full. -/
def wonState : TicTacToeState :=
  (makeMove []
    ((makeMove [AiResponse.move 1 2]
      ((makeMove [AiResponse.move 1 1] initialState 0 0 Player.X).state)
      0 1 Player.X).state)
    0 2 Player.X).state

/-- Modelled from the spec: the source's `clearBoard` always carries the
configured mode over, i.e. it is the spec's `reset(preserveMode=true)`; the
source implements no `preserveMode=false` reset, so it is modelled from the
spec's words ("reset ... yields the documented default mode") as wholesale
replacement of the state by `initialState`, whose `mode` field is the
documented default `player-vs-ai`. -/
def resetNoPreserve (_s : TicTacToeState) : TicTacToeState := initialState

/-- An (unreachable-by-intended-play) board whose top row is all `X` and
whose middle row is all `O`: complete lines exist for both marks. -/
def doubleWinBoard : Board := fun i _ =>
  match i.val with
  | 0 => some Player.X
  | 1 => some Player.O
  | _ => none

/-! ### Claims -/

/-- **C1.** `checkWinner` returns a side's mark exactly when one of the eight
lines (three rows, three columns, two diagonals) has all three cells holding
that same non-empty mark (the returned mark always owns a complete line, and
some mark is returned exactly when some line is complete); and after a
successful `makeMove` the committed state has `winner = checkWinner board`,
the call returns with no further automatic move when the winner is set or
when no line matches and no cell is empty (a draw), and otherwise the state
is still in progress. -/
theorem C1_win_detection_and_move_outcome :
    (∀ b : Board, (checkWinner b).isSome ↔ ∃ l ∈ winningLines, ∃ m : Player, lineIsFor b l m) ∧
    (∀ (b : Board) (m : Player), checkWinner b = some m → ∃ l ∈ winningLines, lineIsFor b l m) ∧
    (∀ (oracle : List AiResponse) (s : TicTacToeState) (row col : Int) (player : Player)
        (s1 : TicTacToeState), applyMove s row col player = Except.ok s1 →
      s1.winner = checkWinner s1.board ∧
      (s1.winner ≠ none → makeMove oracle s row col player = ⟨none, s1⟩) ∧
      (s1.winner = none → boardFull s1.board = true →
        makeMove oracle s row col player = ⟨none, s1⟩ ∧ status s1 = GameStatus.draw) ∧
      (s1.winner = none → boardFull s1.board = false → status s1 = GameStatus.inProgress)) := by
  refine ⟨?_, ?_, ?_⟩
  · intro b
    constructor
    · intro hs
      obtain ⟨m, hm⟩ := Option.isSome_iff_exists.mp hs
      obtain ⟨pre, l, post, heq, hlm, -⟩ := (checkWinner_eq_some_iff b m).mp hm
      exact ⟨l, by rw [heq]; simp, m, hlm⟩
    · rintro ⟨l, hl, m, hm⟩
      cases hcw : checkWinner b with
      | some m2 => rfl
      | none => exact absurd hm ((checkWinner_eq_none_iff b).mp hcw l hl m)
  · intro b m hm
    obtain ⟨pre, l, post, heq, hlm, -⟩ := (checkWinner_eq_some_iff b m).mp hm
    exact ⟨l, by rw [heq]; simp, hlm⟩
  · intro oracle s row col player s1 h
    obtain ⟨hp, r, c, hrow, hcol, hempty, rfl⟩ := applyMove_ok h
    refine ⟨rfl, ?_, ?_, ?_⟩
    · intro hw
      exact makeMove_ok_winner oracle h (Option.isSome_iff_ne_none.mpr hw)
    · intro hw hf
      exact ⟨makeMove_ok_full oracle h hw hf, by simp [status, hw, hf]⟩
    · intro hw hf
      simp [status, hw, hf]

/-- Witness for C1: a concrete successful move (X at (0,0) from the initial
state) with its committed state, winner field, and classification. -/
theorem C1_win_detection_and_move_outcome_witness :
    applyMove initialState 0 0 Player.X = Except.ok stateAfterX00 ∧
    stateAfterX00.winner = checkWinner stateAfterX00.board ∧
    status stateAfterX00 = GameStatus.inProgress :=
  ⟨by decide,
   (C1_win_detection_and_move_outcome.2.2 [] initialState 0 0 Player.X stateAfterX00
     (by decide)).1,
   (C1_win_detection_and_move_outcome.2.2 [] initialState 0 0 Player.X stateAfterX00
     (by decide)).2.2.2 (by decide) (by decide)⟩

/-- **C2** (code bug).  The claim says a state with a non-null winner is
terminal: every subsequent `makeMove` fails and leaves the state unchanged.
The source never checks `winner` in `makeMove`'s validation, so in the
reachable state `wonState` (X has completed the top row, `winner = some X`),
`makeMove([2,2], "O")` succeeds: it returns without throwing and writes `O`
into the board, changing the state. -/
theorem C2_win_not_terminal :
    wonState.winner = some Player.X ∧
    wonState.board 2 2 = none ∧
    (makeMove [] wonState 2 2 Player.O).error = none ∧
    (makeMove [] wonState 2 2 Player.O).state.board 2 2 = some Player.O ∧
    (makeMove [] wonState 2 2 Player.O).state ≠ wonState := by decide

/-- **C3.** For every state and every in-range coordinate, `makeMove` with a
claimed side different from the side to move throws "It's not your turn" and
leaves the whole state (board, currentPlayer, winner, mode, isAiThinking)
unchanged. -/
theorem C3_wrong_turn_rejected (oracle : List AiResponse) (s : TicTacToeState)
    (row col : Int) (player : Player) (hp : player ≠ s.currentPlayer)
    (hr : 0 ≤ row ∧ row < 3) (hc : 0 ≤ col ∧ col < 3) :
    makeMove oracle s row col player = ⟨some MoveError.wrongTurn, s⟩ := by
  apply makeMove_error
  unfold applyMove
  rw [if_pos (Ne.symm hp)]

/-- Witness for C3: O claims a move on the initial state, where X is to
move. -/
theorem C3_wrong_turn_rejected_witness :
    makeMove [] initialState 0 0 Player.O = ⟨some MoveError.wrongTurn, initialState⟩ :=
  C3_wrong_turn_rejected [] initialState 0 0 Player.O (by decide) (by decide) (by decide)

/-- **C4.** For every state and every in-range coordinate whose cell is
non-empty, `makeMove` with the current side to move throws "Cell already
played" and leaves the whole state unchanged. -/
theorem C4_occupied_cell_rejected (oracle : List AiResponse) (s : TicTacToeState)
    (r c : Fin 3) (player : Player) (hp : player = s.currentPlayer)
    (hocc : s.board r c ≠ none) :
    makeMove oracle s (r.val : Int) (c.val : Int) player =
      ⟨some MoveError.cellOccupied, s⟩ := by
  apply makeMove_error
  unfold applyMove
  rw [if_neg (not_ne_iff.mpr hp.symm), toIdx_coe r, toIdx_coe c]
  dsimp only
  rw [if_pos hocc]

/-- Witness for C4: O replays the occupied cell (0,0) after X took it. -/
theorem C4_occupied_cell_rejected_witness :
    makeMove [] stateAfterX00 0 0 Player.O = ⟨some MoveError.cellOccupied, stateAfterX00⟩ :=
  C4_occupied_cell_rejected [] stateAfterX00 0 0 Player.O (by decide) (by decide)

/-- **C5** (counterexample).  The claim says an out-of-range coordinate
fails with a dedicated `OutOfRange` error.  No such error exists in the
source: with the current player claiming the move, an in-range row with an
out-of-range column throws "Cell already played" (`board[row][col]` is
`undefined`, and `undefined !== null`), and an out-of-range row throws a
JavaScript `TypeError`; the error enumeration of the code is exhausted by
`wrongTurn`, `cellOccupied`, `typeError` and `aiFailure`. -/
theorem C5_out_of_range_counterexample :
    (makeMove [] initialState 0 3 Player.X).error = some MoveError.cellOccupied ∧
    (makeMove [] initialState 3 0 Player.X).error = some MoveError.typeError ∧
    (makeMove [] initialState 0 3 Player.X).state = initialState ∧
    (makeMove [] initialState 3 0 Player.X).state = initialState ∧
    ∀ e : MoveError, e = MoveError.wrongTurn ∨ e = MoveError.cellOccupied ∨
      e = MoveError.typeError ∨ e = MoveError.aiFailure := by
  refine ⟨by decide, by decide, by decide, by decide, ?_⟩
  intro e
  cases e <;> simp

/-- **C5** (amended).  For every state, `makeMove` with a coordinate whose
row or column lies outside `[0, 2]` fails — with `WrongTurn` when the
claimed side is not the side to move, otherwise with a `TypeError` when the
row is out of range and with `CellOccupied` when only the column is — and
leaves the game state unchanged; no dedicated `OutOfRange` error exists. -/
theorem C5_out_of_range_amended (oracle : List AiResponse) (s : TicTacToeState)
    (row col : Int) (player : Player)
    (h : ¬(0 ≤ row ∧ row < 3) ∨ ¬(0 ≤ col ∧ col < 3)) :
    makeMove oracle s row col player =
      ⟨some (if s.currentPlayer ≠ player then MoveError.wrongTurn
             else if 0 ≤ row ∧ row < 3 then MoveError.cellOccupied
             else MoveError.typeError), s⟩ := by
  apply makeMove_error
  unfold applyMove
  by_cases hp : s.currentPlayer ≠ player
  · rw [if_pos hp, if_pos hp]
  · rw [if_neg hp, if_neg hp]
    by_cases hr : 0 ≤ row ∧ row < 3
    · have hc : ¬(0 ≤ col ∧ col < 3) := h.resolve_left (not_not_intro hr)
      have hrr : toIdx row = some ⟨row.toNat, by omega⟩ := by
        unfold toIdx
        rw [dif_pos hr]
      have hcc : toIdx col = none := by
        unfold toIdx
        rw [dif_neg hc]
      rw [if_pos hr, hrr, hcc]
    · have hrr : toIdx row = none := by
        unfold toIdx
        rw [dif_neg hr]
      rw [if_neg hr, hrr]

/-- Witness for C5 (amended): column 3 on the initial state with X moving. -/
theorem C5_out_of_range_amended_witness :
    makeMove [] initialState 0 3 Player.X = ⟨some MoveError.cellOccupied, initialState⟩ :=
  (C5_out_of_range_amended [] initialState 0 3 Player.X (Or.inr (by decide))).trans (by decide)

/-- **C6.** Every successful application of a move (the validation-and-write
path of `makeMove`, which every write — human or Move-Source-generated —
goes through) is made by the side to move, writes exactly one mark into a
previously empty in-range cell, changes no other cell (so a non-empty cell
is never changed or emptied), and flips the side to move; consequently the
claimed side strictly alternates across consecutive successful
applications. -/
theorem C6_single_write_and_alternation (s : TicTacToeState) (row col : Int)
    (player : Player) (s' : TicTacToeState)
    (h : applyMove s row col player = Except.ok s') :
    player = s.currentPlayer ∧
    s'.currentPlayer = otherPlayer s.currentPlayer ∧
    (∃ r c : Fin 3, row = (r.val : Int) ∧ col = (c.val : Int) ∧
      s.board r c = none ∧ s'.board r c = some player ∧
      ∀ i j : Fin 3, ¬(i = r ∧ j = c) → s'.board i j = s.board i j) ∧
    (∀ (row2 col2 : Int) (player2 : Player) (s2 : TicTacToeState),
      applyMove s' row2 col2 player2 = Except.ok s2 → player2 = otherPlayer player) := by
  obtain ⟨hp, r, c, hrow, hcol, hempty, rfl⟩ := applyMove_ok h
  refine ⟨hp, by simp [moveState, hp], ⟨r, c, hrow, hcol, hempty, ?_, ?_⟩, ?_⟩
  · simp [moveState, setCell]
  · intro i j hij
    simp [moveState, setCell, hij]
  · intro row2 col2 player2 s2 h2
    have h2p := (applyMove_ok h2).1
    simpa [moveState] using h2p

/-- Witness for C6: the move X at (0,0) from the initial state. -/
theorem C6_single_write_and_alternation_witness :
    Player.X = initialState.currentPlayer ∧
    stateAfterX00.currentPlayer = otherPlayer initialState.currentPlayer ∧
    (∃ r c : Fin 3, (0 : Int) = (r.val : Int) ∧ (0 : Int) = (c.val : Int) ∧
      initialState.board r c = none ∧ stateAfterX00.board r c = some Player.X ∧
      ∀ i j : Fin 3, ¬(i = r ∧ j = c) → stateAfterX00.board i j = initialState.board i j) ∧
    (∀ (row2 col2 : Int) (player2 : Player) (s2 : TicTacToeState),
      applyMove stateAfterX00 row2 col2 player2 = Except.ok s2 →
        player2 = otherPlayer Player.X) :=
  C6_single_write_and_alternation initialState 0 0 Player.X stateAfterX00 (by decide)

/-- **C7** (code bug).  The claim says that when the Move Source request
fails, the failure is surfaced, the board and side to move are as before the
request, no fallback move or retry happens — all of which hold — and that
`isAiThinking` is left cleared.  The `catch` block of the source (lines
129–132) only rethrows: `isAiThinking` was set to `true` before the request
(lines 83–86) and is never reset on the failure path, so the state is left
with `isAiThinking = true`.  Concretely: X plays (0,0) from the initial
state in player-vs-ai mode and the AI request for O fails. -/
theorem C7_ai_failure_leaves_thinking_set :
    (makeMove [AiResponse.failure] initialState 0 0 Player.X).error =
      some MoveError.aiFailure ∧
    (makeMove [AiResponse.failure] initialState 0 0 Player.X).state.isAiThinking = true ∧
    (makeMove [AiResponse.failure] initialState 0 0 Player.X).state.currentPlayer =
      Player.O ∧
    (makeMove [AiResponse.failure] initialState 0 0 Player.X).state.winner = none ∧
    boardFull (makeMove [AiResponse.failure] initialState 0 0 Player.X).state.board =
      false ∧
    (makeMove [AiResponse.failure] initialState 0 0 Player.X).state.board =
      setCell initialState.board 0 0 Player.X ∧
    makeMove [AiResponse.failure, AiResponse.move 1 1] initialState 0 0 Player.X =
      makeMove [AiResponse.failure] initialState 0 0 Player.X := by decide

/-- **C8.** `clearBoard` after `setMode(ai-vs-ai)` yields the initial
in-progress state — all nine cells empty, X to move, no winner,
`isAiThinking` false — with the configured `ai-vs-ai` mode carried over
(the spec's `reset(preserveMode=true)`); a non-preserving reset
(`resetNoPreserve`, modelled from the spec) yields the default mode
`player-vs-ai`. -/
theorem C8_reset_preserves_mode (s : TicTacToeState) :
    clearBoard (setMode s GameMode.aiVsAi) =
      { board := fun _ _ => none, currentPlayer := Player.X, winner := none,
        mode := GameMode.aiVsAi, isAiThinking := false } ∧
    status (clearBoard (setMode s GameMode.aiVsAi)) = GameStatus.inProgress ∧
    resetNoPreserve (setMode s GameMode.aiVsAi) = initialState ∧
    initialState.mode = GameMode.playerVsAi :=
  ⟨rfl, rfl, rfl, rfl⟩

/-- **C9** (code bug).  The claim says a Move Source response requested
before a reset is discarded and never applied to the post-reset board.  The
source tracks no generation counter: the continuation after `generateObject`
resolves is `this.makeMove(object.move, this.state.currentPlayer)`, which
re-reads the *current* state.  Concretely: X plays (0,0), the request for O
is outstanding (`isAiThinking = true`); `clearBoard` returns the agent to
the initial state; the stale response `[1,1]` then resumes and its
`makeMove` succeeds, writing a mark into the fresh board (as X, the
post-reset side to move). -/
theorem C9_stale_response_applied_after_reset :
    (makeMove [] initialState 0 0 Player.X).state.isAiThinking = true ∧
    clearBoard ((makeMove [] initialState 0 0 Player.X).state) = initialState ∧
    initialState.board 1 1 = none ∧
    (makeMove [AiResponse.failure] initialState 1 1 initialState.currentPlayer).state.board
      1 1 = some Player.X := by decide

/-- **C10.** `checkWinner` is a total function on arbitrary boards that
scans the eight lines in the fixed order rows 0–2, columns 0–2, main
diagonal, anti-diagonal, and returns the mark of the first fully matching
line — it returns `some m` exactly when some line is complete for `m` and
every earlier line in the scan order is complete for no mark — and returns
`none` exactly when no line is complete; in particular on `doubleWinBoard`,
where complete lines exist for both marks, it returns `X`, the mark of the
earlier line. -/
theorem C10_first_line_scan :
    (∀ (b : Board) (m : Player),
      checkWinner b = some m ↔
        ∃ pre l post, winningLines = pre ++ l :: post ∧ lineIsFor b l m ∧
          ∀ l' ∈ pre, ∀ m' : Player, ¬ lineIsFor b l' m') ∧
    (∀ b : Board, checkWinner b = none ↔
      ∀ l ∈ winningLines, ∀ m : Player, ¬ lineIsFor b l m) ∧
    checkWinner doubleWinBoard = some Player.X ∧
    lineIsFor doubleWinBoard ((0, 0), (0, 1), (0, 2)) Player.X ∧
    lineIsFor doubleWinBoard ((1, 0), (1, 1), (1, 2)) Player.O ∧
    ((1, 0), (1, 1), (1, 2)) ∈ winningLines :=
  ⟨checkWinner_eq_some_iff, checkWinner_eq_none_iff, by decide, by decide, by decide,
    by decide⟩

end TicTacToeSpec
